import Mathlib

/-!
Verification of the UFC events scraping pipeline: a shallow embedding of the
discovery/reconciliation orchestrator, the fight-card extraction engine,
the fighter identity resolver, the record string codec and the persistence
sink, together with proofs and refutations of the specified properties.
-/

set_option maxHeartbeats 1000000

/-! ## Character and string helpers

Python string primitives (`lower`, `strip`, `split`, `replace`, `in`)
modelled at the character-list level so that everything is executable
and kernel-reducible. -/

/-- ASCII lower-casing of one character, as `str.lower` does for ASCII. -/
def lowerChar (c : Char) : Char :=
  if 'A' ≤ c ∧ c ≤ 'Z' then Char.ofNat (c.toNat + 32) else c

/-- Whitespace as recognised by `str.strip` / `str.split` (common cases). -/
def isSpaceChar (c : Char) : Bool :=
  c = ' ' || c = '\t' || c = '\n' || c = '\r'

/-- Python `s.lower()`. -/
def pyLower (s : String) : String := ⟨s.data.map lowerChar⟩

/-- Python `s.strip()`: drop whitespace from both ends. -/
def pyStrip (s : String) : String :=
  ⟨((s.data.dropWhile isSpaceChar).reverse.dropWhile isSpaceChar).reverse⟩

/-- Membership of `pat` as a contiguous sublist of `l` (Python `pat in s`). -/
def listIsInfix [DecidableEq α] (pat : List α) : List α → Bool
  | [] => pat.isEmpty
  | a :: rest => pat.isPrefixOf (a :: rest) || listIsInfix pat rest

/-- Python `pat in s` for strings. -/
def strContains (s pat : String) : Bool := listIsInfix pat.data s.data

/-- Python `s.replace(pat, rep)` for a nonempty `pat`: replace all
non-overlapping occurrences, scanning left to right. Fuelled so that the
recursion is structural; `fuel = length of the list` always suffices. -/
def replaceListAux (pat rep : List Char) : Nat → List Char → List Char
  | 0, l => l
  | _, [] => []
  | fuel + 1, c :: rest =>
    if pat ≠ [] ∧ pat.isPrefixOf (c :: rest) then
      rep ++ replaceListAux pat rep fuel ((c :: rest).drop pat.length)
    else
      c :: replaceListAux pat rep fuel rest

def replaceList (pat rep cs : List Char) : List Char :=
  replaceListAux pat rep cs.length cs

/-- Python `s.replace(pat, rep)`. -/
def pyReplace (s pat rep : String) : String := ⟨replaceList pat.data rep.data s.data⟩

/-- Split a character list at every separator character (Python `s.split(sep)`,
which keeps empty pieces). -/
def splitOnSep (sep : Char) : List Char → List (List Char)
  | [] => [[]]
  | c :: rest =>
    match splitOnSep sep rest with
    | [] => [[c]]
    | h :: t => if c = sep then [] :: h :: t else (c :: h) :: t

/-- Split at every character satisfying `p`, keeping empty pieces. -/
def splitOnPred (p : Char → Bool) : List Char → List (List Char)
  | [] => [[]]
  | c :: rest =>
    match splitOnPred p rest with
    | [] => [[c]]
    | h :: t => if p c then [] :: h :: t else (c :: h) :: t

/-- Python `s.split()` (no argument): split on whitespace, discarding
empty pieces. -/
def pySplitWs (cs : List Char) : List (List Char) :=
  (splitOnPred isSpaceChar cs).filter (fun w => !w.isEmpty)

/-- Python `s.isdigit()` for ASCII digits (and nonemptiness). -/
def pyIsDigit (cs : List Char) : Bool :=
  !cs.isEmpty && cs.all Char.isDigit

/-- Numeric value of an ASCII digit character. -/
def charToDigit (c : Char) : Nat := c.toNat - 48

/-- Python `int(s)` on a string of ASCII digits. -/
def charsToNat (cs : List Char) : Nat :=
  cs.foldl (fun acc c => 10 * acc + charToDigit c) 0

/-- ASCII digit character of a value below ten. -/
def digitChar (d : Nat) : Char :=
  match d with
  | 0 => '0' | 1 => '1' | 2 => '2' | 3 => '3' | 4 => '4'
  | 5 => '5' | 6 => '6' | 7 => '7' | 8 => '8' | _ => '9'

/-- Fuelled digit rendering, most significant first. -/
def natToCharsAux : Nat → Nat → List Char
  | 0, _ => []
  | fuel + 1, n => if n = 0 then [] else natToCharsAux fuel (n / 10) ++ [digitChar (n % 10)]

/-- Decimal rendering of a natural number (Python `str(n)` / f-string). -/
def natToChars (n : Nat) : List Char :=
  if n = 0 then ['0'] else natToCharsAux (n + 1) n

/-! ## Candidate events, deduplication and discovery

From `UFCScraper._deduplicate_events` and `UFCScraper._discover_events`
in `scrape_ufc.py`. A discovered event is a dict with keys
`id, name, date, venue?, location, url, source`; deduplication reads
`event.get('date')` and `event.get('name', '')`. -/

structure CandidateEvent where
  id : String
  name : String
  date : Option String
  venue : Option String
  location : Option String
  url : String
  source : String
deriving DecidableEq, Repr

/-- The deduplication key `(event.get('date'), event.get('name', '').lower().strip())`. -/
def dedupKey (e : CandidateEvent) : Option String × String :=
  (e.date, pyStrip (pyLower e.name))

/-- Loop of `_deduplicate_events`, carrying the `seen` set of keys. -/
def deduplicateEventsAux (seen : List (Option String × String)) :
    List CandidateEvent → List CandidateEvent
  | [] => []
  | e :: rest =>
    if dedupKey e ∈ seen then deduplicateEventsAux seen rest
    else e :: deduplicateEventsAux (dedupKey e :: seen) rest

/-- `UFCScraper._deduplicate_events`: keep the first event for each key. -/
def deduplicateEvents (events : List CandidateEvent) : List CandidateEvent :=
  deduplicateEventsAux [] events

/-- Reference formulation of the spec sentence for deduplication: keep each
head and drop every later candidate sharing its key, recursively. -/
def specKeepFirstByKey : List CandidateEvent → List CandidateEvent
  | [] => []
  | e :: rest =>
    e :: specKeepFirstByKey (rest.filter (fun e2 => dedupKey e2 ≠ dedupKey e))
termination_by l => l.length
decreasing_by
  have := List.length_filter_le (fun e2 => decide (dedupKey e2 ≠ dedupKey e)) rest
  simp only [List.length_cons]
  omega

/-- `UFCScraper._discover_events`: query Wikipedia; fall back to UFCStats and
UFC.com only when Wikipedia returned no candidates; deduplicate the merged
list. The second component records which sources were queried, in order. -/
def discoverEvents (wikipediaEvents ufcStatsEvents ufcOfficialEvents : List CandidateEvent) :
    List CandidateEvent × List String :=
  let discovered := wikipediaEvents
  if wikipediaEvents.isEmpty then
    (deduplicateEvents (discovered ++ ufcStatsEvents ++ ufcOfficialEvents),
     ["wikipedia", "ufcstats", "ufc_official"])
  else
    (deduplicateEvents discovered, ["wikipedia"])

/-! ## Discovery date filtering

From `WikipediaUFCScraper._should_include_event`: the mode and `since`
filters, with the `except ValueError: return True` policy. The date
parser models `datetime.strptime(s, '%Y-%m-%d')`. -/

def isLeapYear (y : Nat) : Bool :=
  (y % 4 = 0 && y % 100 ≠ 0) || y % 400 = 0

def daysInMonth (y m : Nat) : Nat :=
  if m = 2 then (if isLeapYear y then 29 else 28)
  else if m = 4 || m = 6 || m = 9 || m = 11 then 30
  else 31

/-- `datetime.strptime(s, '%Y-%m-%d')` as a partial function: `none` models
the `ValueError` raised on malformed input. -/
def parseDateYMD (s : String) : Option (Nat × Nat × Nat) :=
  match splitOnSep '-' s.data with
  | [ys, ms, ds] =>
    if pyIsDigit ys && pyIsDigit ms && pyIsDigit ds &&
       ys.length ≤ 4 && ms.length ≤ 2 && ds.length ≤ 2 then
      let y := charsToNat ys
      let m := charsToNat ms
      let d := charsToNat ds
      if 1 ≤ y && 1 ≤ m && m ≤ 12 && 1 ≤ d && d ≤ daysInMonth y m then
        some (y, m, d)
      else none
    else none
  | _ => none

/-- Lexicographic strict order on calendar dates. -/
def dateLt (a b : Nat × Nat × Nat) : Bool :=
  a.1 < b.1 || (a.1 = b.1 && (a.2.1 < b.2.1 || (a.2.1 = b.2.1 && a.2.2 < b.2.2)))

def dateLe (a b : Nat × Nat × Nat) : Bool :=
  dateLt a b || a = b

inductive ScrapeMode where
  | full
  | future
  | historical
deriving DecidableEq, Repr

/-- `WikipediaUFCScraper._should_include_event`. A parse failure of either the
event date or the `since` bound raises `ValueError`, which the `except` clause
turns into inclusion. -/
def shouldIncludeEvent (eventDate : String) (mode : ScrapeMode) (since : Option String)
    (now : Nat × Nat × Nat) : Bool :=
  match parseDateYMD eventDate with
  | none => true
  | some d =>
    if mode = ScrapeMode.future ∧ dateLe d now then false
    else if mode = ScrapeMode.historical ∧ dateLt now d then false
    else
      match since with
      | none => true
      | some s =>
        match parseDateYMD s with
        | none => true
        | some sd => if dateLt d sd then false else true

/-! ## Theorems for C1, C2, C10 -/

theorem dedupAux_keys_fresh (l : List CandidateEvent) :
    ∀ seen, ((deduplicateEventsAux seen l).map dedupKey).Nodup ∧
      ∀ k ∈ (deduplicateEventsAux seen l).map dedupKey, k ∉ seen := by
  induction l with
  | nil => intro seen; simp [deduplicateEventsAux]
  | cons e rest ih =>
    intro seen
    by_cases hk : dedupKey e ∈ seen
    · simpa [deduplicateEventsAux, hk] using ih seen
    · have h2 := ih (dedupKey e :: seen)
      simp only [deduplicateEventsAux, if_neg hk, List.map_cons, List.nodup_cons]
      refine ⟨⟨?_, h2.1⟩, ?_⟩
      · intro hmem
        have := h2.2 _ hmem
        simp at this
      · intro k hkmem
        rcases List.mem_cons.mp hkmem with h | h
        · simpa [h] using hk
        · have hnot := h2.2 _ h
          intro hcon
          exact hnot (List.mem_cons_of_mem _ hcon)

theorem dedupAux_eq_spec (l : List CandidateEvent) :
    ∀ seen, deduplicateEventsAux seen l =
      specKeepFirstByKey (l.filter (fun e => dedupKey e ∉ seen)) := by
  induction l with
  | nil => intro seen; simp [deduplicateEventsAux, specKeepFirstByKey]
  | cons e rest ih =>
    intro seen
    by_cases hk : dedupKey e ∈ seen
    · simp only [deduplicateEventsAux, if_pos hk, List.filter_cons]
      have : (decide (dedupKey e ∉ seen)) = false := by simpa using hk
      rw [this]
      · exact ih seen
    · have hd : (decide (dedupKey e ∉ seen)) = true := by simpa using hk
      simp only [deduplicateEventsAux, if_neg hk, List.filter_cons, hd, if_true]
      rw [specKeepFirstByKey]
      congr 1
      rw [ih (dedupKey e :: seen), List.filter_filter]
      congr 1
      apply List.filter_congr
      intro e2 _
      by_cases h1 : dedupKey e2 = dedupKey e <;> by_cases h2 : dedupKey e2 ∈ seen <;>
        simp [h1, h2]

/-- C1: deduplication keys every candidate by `(date, lower-cased trimmed
name)`; the reconciled list has pairwise-distinct keys, and it equals the
keep-first policy: keep each candidate and drop every later candidate
sharing its key, regardless of source. -/
theorem C1_dedup_key_unique_first_seen_wins (events : List CandidateEvent) :
    ((deduplicateEvents events).map dedupKey).Nodup ∧
    deduplicateEvents events = specKeepFirstByKey events := by
  constructor
  · exact (dedupAux_keys_fresh events []).1
  · have h := dedupAux_eq_spec events []
    simpa [deduplicateEvents] using h

/-- C2: the orchestrator queries Wikipedia first; the fallback sources
UFCStats and UFC.com appear in the queried-source trace exactly when
Wikipedia returned zero candidates, and the reconciled result is the
deduplication of the primary list alone (primary nonempty) or of the
merged fallback lists (primary empty). -/
theorem C2_primary_fallback_policy (w s o : List CandidateEvent) :
    ("wikipedia" ∈ (discoverEvents w s o).2) ∧
    ("ufcstats" ∈ (discoverEvents w s o).2 ↔ w = []) ∧
    ("ufc_official" ∈ (discoverEvents w s o).2 ↔ w = []) ∧
    (w ≠ [] → discoverEvents w s o = (deduplicateEvents w, ["wikipedia"])) ∧
    (w = [] → discoverEvents w s o =
      (deduplicateEvents (s ++ o), ["wikipedia", "ufcstats", "ufc_official"])) := by
  by_cases hw : w = []
  · subst hw
    simp [discoverEvents]
  · have hne : w.isEmpty = false := by
      simpa [List.isEmpty_iff] using hw
    simp [discoverEvents, hne, hw]

/-- Witness for C2 at concrete inputs: one nonempty primary list
short-circuits; an empty primary list falls back to both secondary sources. -/
theorem C2_primary_fallback_policy_witness :
    discoverEvents [⟨"ufc-1", "UFC 1", some "1993-11-12", none, none, "u", "wikipedia"⟩] [] [] =
      (deduplicateEvents [⟨"ufc-1", "UFC 1", some "1993-11-12", none, none, "u", "wikipedia"⟩],
        ["wikipedia"]) ∧
    discoverEvents [] [⟨"e2", "UFC 2", some "1994-03-11", none, none, "u", "ufcstats"⟩] [] =
      (deduplicateEvents [⟨"e2", "UFC 2", some "1994-03-11", none, none, "u", "ufcstats"⟩],
        ["wikipedia", "ufcstats", "ufc_official"]) := by
  constructor
  · exact (C2_primary_fallback_policy _ [] []).2.2.2.1 (by simp)
  · exact (C2_primary_fallback_policy [] _ []).2.2.2.2 rfl

/-- C10: a candidate whose date string fails to parse as `YYYY-MM-DD` is
always included, whatever the mode, the `since` bound and the current date. -/
theorem C10_malformed_date_always_included (eventDate : String) (mode : ScrapeMode)
    (since : Option String) (now : Nat × Nat × Nat)
    (h : parseDateYMD eventDate = none) :
    shouldIncludeEvent eventDate mode since now = true := by
  simp [shouldIncludeEvent, h]

/-- Witness for C10: the malformed date string is included in historical mode
even with a `since` bound that would exclude any parseable date. -/
theorem C10_malformed_date_always_included_witness :
    parseDateYMD "not-a-date" = none ∧
    shouldIncludeEvent "not-a-date" ScrapeMode.historical (some "2030-01-01")
      (2025, 10, 12) = true := by
  refine ⟨by decide, ?_⟩
  exact C10_malformed_date_always_included "not-a-date" ScrapeMode.historical
    (some "2030-01-01") (2025, 10, 12) (by decide)

/-! ## Domain model

From `models/ufc_models.py` (pydantic). Construction-time validation is
modelled by `Fighter.valid` / `Fight.valid`: a pydantic `ValidationError`
at a construction site corresponds to the checks returning `false`, and
the adapters' `try/except` blocks turn that into `none`. -/

inductive TitleFightType where
  | undisputed
  | interim
  | none
deriving DecidableEq, Repr

/-- `FighterRecord`: win-loss-draw record with optional draws/no-contests. -/
structure FighterRecord where
  wins : Nat
  losses : Nat
  draws : Option Nat := Option.none
  no_contests : Option Nat := Option.none
deriving DecidableEq, Repr

structure Fighter where
  name : String
  record : Option String := Option.none
  rank : Option Nat := Option.none
  country : Option String := Option.none
  age : Option Nat := Option.none
  nickname : Option String := Option.none
  is_champion : Bool := false
  record_breakdown : Option FighterRecord := Option.none
  wikipedia_url : Option String := Option.none
  bonus : Option String := Option.none
deriving DecidableEq, Repr

/-- Pydantic validation of `Fighter`: `name` has `min_length=1`,
`rank` is 1–15, `age` is 18–60. -/
def Fighter.valid (f : Fighter) : Bool :=
  !f.name.data.isEmpty &&
  f.rank.all (fun r => decide (1 ≤ r) && decide (r ≤ 15)) &&
  f.age.all (fun a => decide (18 ≤ a) && decide (a ≤ 60))

structure Fight where
  bout_order : Nat
  fighter1 : Fighter
  fighter2 : Fighter
  weight_class : String
  title_fight : TitleFightType := TitleFightType.none
  method : Option String := Option.none
  round : Option Nat := Option.none
  time : Option String := Option.none
  winner : Option String := Option.none
  result : Option String := Option.none
  referee : Option String := Option.none
  bonuses : Option (List String) := Option.none
  odds : Option String := Option.none
  stats : Option String := Option.none
  fight_url : Option String := Option.none
  segment : Option String := Option.none
deriving DecidableEq, Repr

/-- Pydantic validation of `Fight`: `bout_order ≥ 1`, nonempty
`weight_class`, `round` within 1–5, and valid embedded fighters. -/
def Fight.valid (f : Fight) : Bool :=
  decide (1 ≤ f.bout_order) &&
  Fighter.valid f.fighter1 && Fighter.valid f.fighter2 &&
  !f.weight_class.data.isEmpty &&
  f.round.all (fun r => decide (1 ≤ r) && decide (r ≤ 5))

/-- Validated construction: `some` on success, `none` for the
`ValidationError` caught by the adapters. -/
def Fight.mkChecked (f : Fight) : Option Fight :=
  if f.valid then some f else Option.none

/-! ## Fighter record string codec

`UFCFighterDatabaseScraper._parse_record_string` from
`scrapers/fighter_database.py`, a character-level model of the regex
searches `(\d+)[-–](\d+)[-–](\d+)`, `(\d+)[-–](\d+)` and
`\((\d+)\s*NC\)` (case-insensitive), with Python's leftmost-match rule. -/

def isDashChar (c : Char) : Bool := c = '-' || c = '–'

/-- Try the three-group pattern `(\d+)[-–](\d+)[-–](\d+)` anchored at the
start of `cs`. -/
def matchWLD (cs : List Char) : Option (Nat × Nat × Nat) :=
  let d1 := cs.takeWhile Char.isDigit
  let r1 := cs.dropWhile Char.isDigit
  if d1.isEmpty then Option.none else
  match r1 with
  | c :: r2 =>
    if isDashChar c then
      let d2 := r2.takeWhile Char.isDigit
      let r3 := r2.dropWhile Char.isDigit
      if d2.isEmpty then Option.none else
      match r3 with
      | c2 :: r4 =>
        if isDashChar c2 then
          let d3 := r4.takeWhile Char.isDigit
          if d3.isEmpty then Option.none
          else some (charsToNat d1, charsToNat d2, charsToNat d3)
        else Option.none
      | [] => Option.none
    else Option.none
  | [] => Option.none

def searchWLD : List Char → Option (Nat × Nat × Nat)
  | [] => Option.none
  | c :: rest =>
    match matchWLD (c :: rest) with
    | some x => some x
    | Option.none => searchWLD rest

/-- Try the two-group pattern `(\d+)[-–](\d+)` anchored at the start. -/
def matchWL (cs : List Char) : Option (Nat × Nat) :=
  let d1 := cs.takeWhile Char.isDigit
  let r1 := cs.dropWhile Char.isDigit
  if d1.isEmpty then Option.none else
  match r1 with
  | c :: r2 =>
    if isDashChar c then
      let d2 := r2.takeWhile Char.isDigit
      if d2.isEmpty then Option.none
      else some (charsToNat d1, charsToNat d2)
    else Option.none
  | [] => Option.none

def searchWL : List Char → Option (Nat × Nat)
  | [] => Option.none
  | c :: rest =>
    match matchWL (c :: rest) with
    | some x => some x
    | Option.none => searchWL rest

/-- Try `\((\d+)\s*NC\)` (ignoring case on `NC`) anchored at the start. -/
def matchNC (cs : List Char) : Option Nat :=
  match cs with
  | c :: r1 =>
    if c = '(' then
      let d := r1.takeWhile Char.isDigit
      let r2 := r1.dropWhile Char.isDigit
      if d.isEmpty then Option.none
      else
        match r2.dropWhile isSpaceChar with
        | n :: c2 :: c3 :: _ =>
          if (n = 'N' || n = 'n') && (c2 = 'C' || c2 = 'c') && c3 = ')' then
            some (charsToNat d)
          else Option.none
        | _ => Option.none
    else Option.none
  | [] => Option.none

def searchNC : List Char → Option Nat
  | [] => Option.none
  | c :: rest =>
    match matchNC (c :: rest) with
    | some x => some x
    | Option.none => searchNC rest

/-- `UFCFighterDatabaseScraper._parse_record_string`. -/
def parseRecordString (s : String) : Option FighterRecord :=
  let cs := s.data
  if cs.isEmpty then Option.none
  else
    match searchWLD cs with
    | some (w, l, d) =>
      some { wins := w, losses := l,
             draws := if d > 0 then some d else Option.none,
             no_contests := searchNC cs }
    | Option.none =>
      match searchWL cs with
      | some (w, l) =>
        some { wins := w, losses := l, draws := Option.none,
               no_contests := searchNC cs }
      | Option.none => Option.none

/-- Modelled from the spec: `FighterRecord.to_record_string`. The
`FighterRecord` class is imported from `models.ufc_models` but its body is
absent from the source tree; the spec fixes a canonical
"W-L-D (N NC)" representation, with the NC suffix present exactly when
`no_contests` is set and draws rendered as 0 when absent. -/
def toRecordString (r : FighterRecord) : String :=
  ⟨natToChars r.wins ++ '-' :: (natToChars r.losses ++ '-' ::
     (natToChars (r.draws.getD 0) ++
       (match r.no_contests with
        | some n => ' ' :: '(' :: (natToChars n ++ [' ', 'N', 'C', ')'])
        | Option.none => [])))⟩

/-! ## Correctness of the record codec (C7) -/

theorem digitChar_isDigit (d : Nat) : (digitChar d).isDigit = true := by
  match d with
  | 0 | 1 | 2 | 3 | 4 | 5 | 6 | 7 | 8 => decide
  | n + 9 => show ('9').isDigit = true; decide

theorem charToDigit_digitChar (d : Nat) (h : d < 10) : charToDigit (digitChar d) = d := by
  interval_cases d <;> decide

theorem natToCharsAux_eq_digits (fuel : Nat) :
    ∀ n, n ≤ fuel → natToCharsAux fuel n = (Nat.digits 10 n).reverse.map digitChar := by
  induction fuel with
  | zero =>
    intro n hn
    have : n = 0 := Nat.le_zero.mp hn
    subst this
    simp [natToCharsAux]
  | succ fuel ih =>
    intro n hn
    by_cases h0 : n = 0
    · subst h0; simp [natToCharsAux]
    · have hdiv : n / 10 ≤ fuel := by
        have h1 : n / 10 < n := Nat.div_lt_self (Nat.pos_of_ne_zero h0) (by norm_num)
        omega
      rw [natToCharsAux, if_neg h0, ih (n / 10) hdiv,
        Nat.digits_def' (b := 10) (by norm_num) (Nat.pos_of_ne_zero h0)]
      simp

theorem natToChars_eq_digits (n : Nat) (h : n ≠ 0) :
    natToChars n = (Nat.digits 10 n).reverse.map digitChar := by
  rw [natToChars, if_neg h, natToCharsAux_eq_digits (n + 1) n (by omega)]

theorem natToChars_ne_nil (n : Nat) : natToChars n ≠ [] := by
  by_cases h : n = 0
  · subst h; decide
  · rw [natToChars_eq_digits n h]
    simp [Nat.digits_ne_nil_iff_ne_zero, h]

theorem natToChars_all_digits (n : Nat) : ∀ c ∈ natToChars n, c.isDigit = true := by
  by_cases h : n = 0
  · subst h
    intro c hc
    have h0 : natToChars 0 = ['0'] := rfl
    rw [h0, List.mem_singleton] at hc
    subst hc; decide
  · rw [natToChars_eq_digits n h]
    intro c hc
    obtain ⟨d, _, rfl⟩ := List.mem_map.mp hc
    exact digitChar_isDigit d

theorem charsToNat_go (L : List Nat) (h : ∀ d ∈ L, d < 10) :
    ∀ acc, List.foldl (fun a c => 10 * a + charToDigit c) acc (L.reverse.map digitChar)
      = acc * 10 ^ L.length + Nat.ofDigits 10 L := by
  induction L with
  | nil => intro acc; simp [Nat.ofDigits]
  | cons d rest ih =>
    intro acc
    have hd : d < 10 := h d (by simp)
    have hr : ∀ x ∈ rest, x < 10 := fun x hx => h x (by simp [hx])
    simp only [List.reverse_cons, List.map_append, List.map_cons, List.map_nil,
      List.foldl_append, List.foldl_cons, List.foldl_nil, ih hr acc]
    rw [charToDigit_digitChar d hd, Nat.ofDigits_cons, List.length_cons]
    ring

theorem charsToNat_natToChars (n : Nat) : charsToNat (natToChars n) = n := by
  by_cases h : n = 0
  · subst h; decide
  · have hdig : ∀ d ∈ Nat.digits 10 n, d < 10 :=
      fun d hd => Nat.digits_lt_base (by norm_num) hd
    rw [natToChars_eq_digits n h, charsToNat, charsToNat_go _ hdig 0]
    simp [Nat.ofDigits_digits]

theorem takeWhile_middle (p : Char → Bool) (xs : List Char) (y : Char) (ys : List Char)
    (hxs : ∀ x ∈ xs, p x = true) (hy : p y = false) :
    (xs ++ y :: ys).takeWhile p = xs := by
  induction xs with
  | nil => simp [List.takeWhile_cons, hy]
  | cons a l ih =>
    have ha : p a = true := hxs a (by simp)
    simp only [List.cons_append, List.takeWhile_cons, ha, if_true]
    rw [ih (fun x hx => hxs x (by simp [hx]))]

theorem dropWhile_middle (p : Char → Bool) (xs : List Char) (y : Char) (ys : List Char)
    (hxs : ∀ x ∈ xs, p x = true) (hy : p y = false) :
    (xs ++ y :: ys).dropWhile p = y :: ys := by
  induction xs with
  | nil => simp [List.dropWhile_cons, hy]
  | cons a l ih =>
    have ha : p a = true := hxs a (by simp)
    simp only [List.cons_append, List.dropWhile_cons, ha, if_true]
    exact ih (fun x hx => hxs x (by simp [hx]))

theorem takeWhile_all_true (p : Char → Bool) (xs : List Char)
    (hxs : ∀ x ∈ xs, p x = true) : xs.takeWhile p = xs := by
  induction xs with
  | nil => rfl
  | cons a l ih =>
    have ha : p a = true := hxs a (by simp)
    simp only [List.takeWhile_cons, ha, if_true]
    rw [ih (fun x hx => hxs x (by simp [hx]))]

theorem dropWhile_all_true (p : Char → Bool) (xs : List Char)
    (hxs : ∀ x ∈ xs, p x = true) : xs.dropWhile p = [] := by
  induction xs with
  | nil => rfl
  | cons a l ih =>
    have ha : p a = true := hxs a (by simp)
    simp only [List.dropWhile_cons, ha, if_true]
    exact ih (fun x hx => hxs x (by simp [hx]))

theorem isEmpty_false_of_ne_nil {l : List Char} (h : l ≠ []) : l.isEmpty = false := by
  cases l with
  | nil => exact absurd rfl h
  | cons a l => rfl

theorem searchWLD_of_match (cs : List Char) (x : Nat × Nat × Nat)
    (hne : cs ≠ []) (h : matchWLD cs = some x) : searchWLD cs = some x := by
  cases cs with
  | nil => exact absurd rfl hne
  | cons c rest => simp [searchWLD, h]

theorem matchNC_cons_ne {c : Char} (rest : List Char) (h : c ≠ '(') :
    matchNC (c :: rest) = Option.none := by
  simp [matchNC, h]

theorem searchNC_cons_ne {c : Char} (rest : List Char) (h : c ≠ '(') :
    searchNC (c :: rest) = searchNC rest := by
  simp [searchNC, matchNC_cons_ne rest h]

theorem searchNC_append_ne (xs : List Char) (ys : List Char)
    (hxs : ∀ x ∈ xs, x ≠ '(') : searchNC (xs ++ ys) = searchNC ys := by
  induction xs with
  | nil => simp
  | cons a l ih =>
    have ha : a ≠ '(' := hxs a (by simp)
    rw [List.cons_append, searchNC_cons_ne _ ha]
    exact ih (fun x hx => hxs x (by simp [hx]))

theorem digit_ne_paren {c : Char} (h : c.isDigit = true) : c ≠ '(' := by
  intro hc
  subst hc
  exact absurd h (by decide)

theorem matchWLD_canonical (W L D T : List Char)
    (hW : W ≠ []) (hWd : ∀ c ∈ W, c.isDigit = true)
    (hL : L ≠ []) (hLd : ∀ c ∈ L, c.isDigit = true)
    (hD : D ≠ []) (hDd : ∀ c ∈ D, c.isDigit = true)
    (hT : T = [] ∨ ∃ t, T = ' ' :: t) :
    matchWLD (W ++ '-' :: (L ++ '-' :: (D ++ T)))
      = some (charsToNat W, charsToNat L, charsToNat D) := by
  have hdash : ('-').isDigit = false := by decide
  have h1 : (W ++ '-' :: (L ++ '-' :: (D ++ T))).takeWhile Char.isDigit = W :=
    takeWhile_middle _ _ _ _ hWd hdash
  have h2 : (W ++ '-' :: (L ++ '-' :: (D ++ T))).dropWhile Char.isDigit
      = '-' :: (L ++ '-' :: (D ++ T)) :=
    dropWhile_middle _ _ _ _ hWd hdash
  have h3 : (L ++ '-' :: (D ++ T)).takeWhile Char.isDigit = L :=
    takeWhile_middle _ _ _ _ hLd hdash
  have h4 : (L ++ '-' :: (D ++ T)).dropWhile Char.isDigit = '-' :: (D ++ T) :=
    dropWhile_middle _ _ _ _ hLd hdash
  have h5 : (D ++ T).takeWhile Char.isDigit = D := by
    rcases hT with hT | ⟨t, hT⟩
    · subst hT; rw [List.append_nil]; exact takeWhile_all_true _ _ hDd
    · subst hT; exact takeWhile_middle _ _ _ _ hDd (by decide)
  simp only [matchWLD, h1, h2, h3, h4, h5,
    isEmpty_false_of_ne_nil hW, isEmpty_false_of_ne_nil hL, isEmpty_false_of_ne_nil hD]
  simp [isDashChar]

theorem searchWLD_canonical (w l d0 : Nat) (T : List Char)
    (hT : T = [] ∨ ∃ t, T = ' ' :: t) :
    searchWLD (natToChars w ++ '-' :: (natToChars l ++ '-' :: (natToChars d0 ++ T)))
      = some (w, l, d0) := by
  have hm := matchWLD_canonical (natToChars w) (natToChars l) (natToChars d0) T
    (natToChars_ne_nil w) (natToChars_all_digits w)
    (natToChars_ne_nil l) (natToChars_all_digits l)
    (natToChars_ne_nil d0) (natToChars_all_digits d0) hT
  rw [charsToNat_natToChars, charsToNat_natToChars, charsToNat_natToChars] at hm
  refine searchWLD_of_match _ _ ?_ hm
  intro hc
  exact natToChars_ne_nil w (List.append_eq_nil.mp hc).1

theorem searchNC_canonical (w l d0 : Nat) (T : List Char) :
    searchNC (natToChars w ++ '-' :: (natToChars l ++ '-' :: (natToChars d0 ++ T)))
      = searchNC T := by
  rw [searchNC_append_ne _ _ (fun c hc => digit_ne_paren (natToChars_all_digits w c hc)),
    searchNC_cons_ne _ (by decide),
    searchNC_append_ne _ _ (fun c hc => digit_ne_paren (natToChars_all_digits l c hc)),
    searchNC_cons_ne _ (by decide),
    searchNC_append_ne _ _ (fun c hc => digit_ne_paren (natToChars_all_digits d0 c hc))]

theorem searchNC_nc_tail (n : Nat) :
    searchNC (' ' :: '(' :: (natToChars n ++ [' ', 'N', 'C', ')'])) = some n := by
  rw [searchNC_cons_ne _ (by decide)]
  have h1 : (natToChars n ++ [' ', 'N', 'C', ')']).takeWhile Char.isDigit = natToChars n :=
    takeWhile_middle Char.isDigit (natToChars n) ' ' ['N', 'C', ')']
      (natToChars_all_digits n) (by decide)
  have h2 : (natToChars n ++ [' ', 'N', 'C', ')']).dropWhile Char.isDigit
      = [' ', 'N', 'C', ')'] :=
    dropWhile_middle Char.isDigit (natToChars n) ' ' ['N', 'C', ')']
      (natToChars_all_digits n) (by decide)
  have hds : ([' ', 'N', 'C', ')'] : List Char).dropWhile isSpaceChar = ['N', 'C', ')'] := by
    decide
  have hm : matchNC ('(' :: (natToChars n ++ [' ', 'N', 'C', ')'])) = some n := by
    simp only [matchNC, if_pos rfl, h1, h2, hds,
      isEmpty_false_of_ne_nil (natToChars_ne_nil n), Bool.false_eq_true, if_false]
    rw [charsToNat_natToChars]
    simp
  simp [searchNC, hm]

theorem parseRecordString_canonical (w l d0 : Nat) (T : List Char) (nc : Option Nat)
    (hT : (nc = Option.none ∧ T = []) ∨
      (∃ n, nc = some n ∧ T = ' ' :: '(' :: (natToChars n ++ [' ', 'N', 'C', ')']))) :
    parseRecordString ⟨natToChars w ++ '-' :: (natToChars l ++ '-' :: (natToChars d0 ++ T))⟩
      = some { wins := w, losses := l,
               draws := if d0 > 0 then some d0 else Option.none,
               no_contests := nc } := by
  have hdata : (⟨natToChars w ++ '-' :: (natToChars l ++ '-' :: (natToChars d0 ++ T))⟩ :
      String).data = natToChars w ++ '-' :: (natToChars l ++ '-' :: (natToChars d0 ++ T)) := rfl
  have hTshape : T = [] ∨ ∃ t, T = ' ' :: t := by
    rcases hT with ⟨_, hT⟩ | ⟨n, _, hT⟩
    · exact Or.inl hT
    · exact Or.inr ⟨_, hT⟩
  have hne : natToChars w ++ '-' :: (natToChars l ++ '-' :: (natToChars d0 ++ T)) ≠ [] := by
    intro hc
    exact natToChars_ne_nil w (List.append_eq_nil.mp hc).1
  rw [parseRecordString]
  simp only [hdata, isEmpty_false_of_ne_nil hne, Bool.false_eq_true, if_false,
    searchWLD_canonical w l d0 T hTshape, searchNC_canonical w l d0 T]
  rcases hT with ⟨hnc, hT⟩ | ⟨n, hnc, hT⟩
  · subst hnc; subst hT; rfl
  · subst hnc; subst hT
    rw [searchNC_nc_tail n]

/-- C7 counterexample: a record with an explicit `draws = 0` does not survive
the round trip — the parser normalises zero draws to an absent value. -/
theorem C7_roundtrip_counterexample :
    parseRecordString (toRecordString
        { wins := 1, losses := 2, draws := some 0, no_contests := Option.none })
      ≠ some { wins := 1, losses := 2, draws := some 0, no_contests := Option.none } := by
  decide

/-- C7 (amended): for every `FighterRecord` whose `draws` field is not an
explicit zero, rendering to the canonical "W-L-D (N NC)" string and parsing
back reproduces the original wins, losses, draws and no-contests. -/
theorem C7_record_string_roundtrip (r : FighterRecord) (h : r.draws ≠ some 0) :
    parseRecordString (toRecordString r) = some r := by
  obtain ⟨w, l, dr, nc⟩ := r
  cases nc with
  | none =>
    have hrepr : toRecordString
        { wins := w, losses := l, draws := dr, no_contests := Option.none }
        = ⟨natToChars w ++ '-' :: (natToChars l ++ '-' ::
            (natToChars (dr.getD 0) ++ ([] : List Char)))⟩ := rfl
    rw [hrepr, parseRecordString_canonical w l (dr.getD 0) [] Option.none (Or.inl ⟨rfl, rfl⟩)]
    cases dr with
    | none => rfl
    | some d =>
      have hd : d ≠ 0 := by
        intro h0
        exact h (by simp [h0])
      simp [Option.getD, Nat.pos_of_ne_zero hd]
  | some n =>
    have hrepr : toRecordString
        { wins := w, losses := l, draws := dr, no_contests := some n }
        = ⟨natToChars w ++ '-' :: (natToChars l ++ '-' ::
            (natToChars (dr.getD 0) ++
              (' ' :: '(' :: (natToChars n ++ [' ', 'N', 'C', ')']))))⟩ := rfl
    rw [hrepr, parseRecordString_canonical w l (dr.getD 0)
      (' ' :: '(' :: (natToChars n ++ [' ', 'N', 'C', ')'])) (some n)
      (Or.inr ⟨n, rfl, rfl⟩)]
    cases dr with
    | none => rfl
    | some d =>
      have hd : d ≠ 0 := by
        intro h0
        exact h (by simp [h0])
      simp [Option.getD, Nat.pos_of_ne_zero hd]

/-- Witness for C7 at the record 22-3-1 (2 NC). -/
theorem C7_record_string_roundtrip_witness :
    ({ wins := 22, losses := 3, draws := some 1, no_contests := some 2 } :
        FighterRecord).draws ≠ some 0 ∧
    parseRecordString (toRecordString
        { wins := 22, losses := 3, draws := some 1, no_contests := some 2 })
      = some { wins := 22, losses := 3, draws := some 1, no_contests := some 2 } := by
  refine ⟨by decide, ?_⟩
  exact C7_record_string_roundtrip
    { wins := 22, losses := 3, draws := some 1, no_contests := some 2 } (by decide)

/-! ## Fighter identity resolution

`WikipediaUFCScraper._names_match_fuzzy` and
`WikipediaUFCScraper._fetch_fighter_record`. The fighter database is the
insertion-ordered dict from lower-cased name to `Fighter`. -/

/-- `WikipediaUFCScraper._names_match_fuzzy`. -/
def namesMatchFuzzy (targetName candidateName : String) : Bool :=
  let target := pyStrip (pyLower targetName)
  let candidate := pyStrip (pyLower candidateName)
  if target = candidate then true
  else
    let targetClean :=
      pyReplace (pyReplace (pyReplace target "." "") "-" " ") "  " " "
    let candidateClean :=
      pyReplace (pyReplace (pyReplace candidate "." "") "-" " ") "  " " "
    if targetClean = candidateClean then true
    else
      let targetWords := pySplitWs targetClean.data
      let candidateWords := pySplitWs candidateClean.data
      if 2 ≤ targetWords.length ∧ 2 ≤ candidateWords.length then
        if targetWords.head? = candidateWords.head? ∧
           targetWords.getLast? = candidateWords.getLast? then true
        else false
      else false

/-- Python dict lookup `db[key]` for the fighter registry. -/
def dbLookup (key : String) : List (String × Fighter) → Option Fighter
  | [] => Option.none
  | (k, f) :: rest => if k = key then some f else dbLookup key rest

/-- The fuzzy fallback loop of `_fetch_fighter_record`: first database entry
whose key fuzzily matches the name and which carries a record breakdown. -/
def fuzzyScan (fighterName : String) : List (String × Fighter) → Option FighterRecord
  | [] => Option.none
  | (dbName, dbFighter) :: rest =>
    if namesMatchFuzzy fighterName dbName then
      match dbFighter.record_breakdown with
      | some r => some r
      | Option.none => fuzzyScan fighterName rest
    else fuzzyScan fighterName rest

/-- `WikipediaUFCScraper._fetch_fighter_record` (database already loaded):
exact lower-cased/trimmed lookup first, then the fuzzy scan; an exact hit
without a record breakdown also falls through to the fuzzy scan. -/
def fetchFighterRecord (db : List (String × Fighter)) (fighterName : String) :
    Option FighterRecord :=
  if db.isEmpty then Option.none
  else
    let fighterKey := pyStrip (pyLower fighterName)
    match dbLookup fighterKey db with
    | some databaseFighter =>
      match databaseFighter.record_breakdown with
      | some r => some r
      | Option.none => fuzzyScan fighterName db
    | Option.none => fuzzyScan fighterName db

/-- C6 counterexample: resolving "Jon Jones" against a registry containing
only the reversed-order key "jones, jon" (with a record present) fails — the
claim says it must succeed via a reversed-token match. -/
theorem C6_reversed_name_counterexample :
    fetchFighterRecord
      [("jones, jon",
        { name := "Jones, Jon",
          record_breakdown := some { wins := 27, losses := 1 } })]
      "Jon Jones" = Option.none := by
  decide

/-- C6 (amended): the third lookup stage requires the first and the last
name tokens to agree in the same order (commas are not stripped either), so
"Jon Jones" does not resolve against "jones, jon"; a key sharing first and
last tokens in the same order, such as "jon bones jones", does resolve. -/
theorem C6_token_match_same_order_only :
    namesMatchFuzzy "Jon Jones" "jones, jon" = false ∧
    fetchFighterRecord
      [("jones, jon",
        { name := "Jones, Jon",
          record_breakdown := some { wins := 27, losses := 1 } })]
      "Jon Jones" = Option.none ∧
    namesMatchFuzzy "Jon Jones" "jon bones jones" = true ∧
    fetchFighterRecord
      [("jon bones jones",
        { name := "Jon Bones Jones",
          record_breakdown := some { wins := 27, losses := 1 } })]
      "Jon Jones" = some { wins := 27, losses := 1 } := by
  refine ⟨by decide, by decide, by decide, by decide⟩

/-! ## Fight-card extraction: Wikipedia adapter

`WikipediaUFCScraper._parse_fight_segments`, `_parse_fight_row`,
`_create_fight_with_records` and `_extract_fight_card_with_records`. A table
row is the list of its cells (`find_all(['th', 'td'])`); a cell carries its
text and whether it is a `th`. The bonus-award pass
(`_extract_bonus_awards` / `_assign_bonuses_to_fights`) only mutates
`Fighter.bonus` on the produced fights and is not modelled: no claim
touches the bonus field. -/

structure TableCell where
  text : String
  isTh : Bool
deriving DecidableEq, Repr

/-- Parsed fight dict produced by `_parse_fight_row` / `_parse_fight_text`. -/
structure FightData where
  fighter1 : String
  fighter2 : String
  fighter1_is_champion : Bool
  fighter2_is_champion : Bool
  is_title_fight : Bool
  winner : Option String := Option.none
  method : Option String := Option.none
  round : Option String := Option.none
  time : Option String := Option.none
  weight_class : String
deriving DecidableEq, Repr

/-- Remainder after the first `)` (the regex piece `[^)]*\)`). -/
def afterCloseParen : List Char → Option (List Char)
  | [] => Option.none
  | c :: rest => if c = ')' then some rest else afterCloseParen rest

/-- Try the pattern `\s*\([^)]*\)` at the start; `some` returns the
remainder after the matched group. -/
def matchParenGroup (cs : List Char) : Option (List Char) :=
  match cs.dropWhile isSpaceChar with
  | '(' :: rest => afterCloseParen rest
  | _ => Option.none

/-- `re.sub(r'\s*\([^)]*\)', '', s)` scanning left to right (fuelled;
the list length is enough fuel since each match consumes two or more
characters). -/
def stripParensAux : Nat → List Char → List Char
  | 0, l => l
  | _, [] => []
  | fuel + 1, c :: rest =>
    match matchParenGroup (c :: rest) with
    | some remainder => stripParensAux fuel remainder
    | Option.none => c :: stripParensAux fuel rest

/-- Fighter-name cleanup `re.sub(r'\s*\([^)]*\)', '', name).strip()`. -/
def cleanName (s : String) : String :=
  pyStrip ⟨stripParensAux s.data.length s.data⟩

/-- Python dict comprehension `{text: i for i, text in enumerate(hs)}` plus
`.get(key, default)`: index of the last occurrence, or the default. -/
def colMapGetAux (key : String) : Nat → Option Nat → List String → Option Nat
  | _, acc, [] => acc
  | i, acc, h :: t => colMapGetAux key (i + 1) (if h = key then some i else acc) t

def colMapGet (headers : List String) (key : String) (dflt : Nat) : Nat :=
  (colMapGetAux key 0 Option.none headers).getD dflt

/-- `WikipediaUFCScraper._parse_fight_row`. `prev` is the nearest preceding
`tr` (`row.find_previous('tr')`); `Option.none` there models the
`AttributeError` caught by the surrounding `except`, as does an
out-of-range direct cell access (`IndexError`). -/
def parseFightRow (prev : Option (List TableCell)) (cells : List TableCell) :
    Option FightData :=
  if cells.length < 5 then Option.none
  else
    match prev with
    | Option.none => Option.none
    | some prevRow =>
      let headerTexts :=
        (prevRow.filter (fun c => c.isTh)).map (fun c => pyLower (pyStrip c.text))
      let wcCol := colMapGet headerTexts "weight class" 0
      let f1Col := colMapGet headerTexts "fighter 1" 1
      let f2Col := colMapGet headerTexts "fighter 2" 3
      let methodCol := colMapGet headerTexts "method" 4
      let roundCol := colMapGet headerTexts "round" 5
      let timeCol := colMapGet headerTexts "time" 6
      match cells.get? wcCol, cells.get? f1Col, cells.get? f2Col with
      | some wcCell, some f1Cell, some f2Cell =>
        let weightClass := pyStrip wcCell.text
        let fighter1 := pyStrip f1Cell.text
        let fighter2 := pyStrip f2Cell.text
        let method :=
          match cells.get? methodCol with
          | some c => pyStrip c.text
          | Option.none => ""
        let roundText :=
          match cells.get? roundCol with
          | some c => pyStrip c.text
          | Option.none => ""
        let timeText :=
          match cells.get? timeCol with
          | some c => pyStrip c.text
          | Option.none => ""
        let winner := fighter1
        let fighter1IsChampion := strContains (pyLower fighter1) "(c)"
        let fighter2IsChampion := strContains (pyLower fighter2) "(c)"
        some { fighter1 := cleanName fighter1,
               fighter2 := cleanName fighter2,
               fighter1_is_champion := fighter1IsChampion,
               fighter2_is_champion := fighter2IsChampion,
               is_title_fight := fighter1IsChampion || fighter2IsChampion,
               winner := some (cleanName winner),
               method := some method,
               round := some roundText,
               time := some timeText,
               weight_class := weightClass }
      | _, _, _ => Option.none

/-- Create the dict entry for a segment before its first data row, as
Python's `segments[current_segment] = []` does. -/
def segmentsEnsure (segs : List (String × List FightData)) (name : String) :
    List (String × List FightData) :=
  if segs.any (fun p => p.1 = name) then segs else segs ++ [(name, [])]

/-- Append a parsed fight dict to its segment's list. -/
def segmentsAppend (segs : List (String × List FightData)) (name : String)
    (fd : FightData) : List (String × List FightData) :=
  segs.map (fun p => if p.1 = name then (p.1, p.2 ++ [fd]) else p)

/-- Loop of `WikipediaUFCScraper._parse_fight_segments`, tracking the
previous row, the current segment (default "main-card") and the
insertion-ordered segments dict. -/
def parseFightSegmentsAux : Option (List TableCell) → String →
    List (String × List FightData) → List (List TableCell) →
    List (String × List FightData)
  | _, _, segs, [] => segs
  | prev, cur, segs, row :: rest =>
    match row with
    | [cell] =>
      let headerText := pyLower cell.text
      let cur2 :=
        if strContains headerText "main card" then "main-card"
        else if strContains headerText "preliminary card" ||
            strContains headerText "prelim" then
          (if strContains headerText "early" then "early-prelims" else "prelims")
        else cur
      parseFightSegmentsAux (some row) cur2 segs rest
    | [] => parseFightSegmentsAux (some row) cur segs rest
    | firstCell :: _ :: _ =>
      if strContains (pyLower firstCell.text) "weight class" then
        parseFightSegmentsAux (some row) cur segs rest
      else
        let segs1 := segmentsEnsure segs cur
        match parseFightRow prev row with
        | some fd => parseFightSegmentsAux (some row) cur (segmentsAppend segs1 cur fd) rest
        | Option.none => parseFightSegmentsAux (some row) cur segs1 rest

/-- `WikipediaUFCScraper._parse_fight_segments` over the rows of the
`toccolours` table; `prev0` is whatever `tr` precedes the table in the
document, if any. -/
def parseFightSegments (prev0 : Option (List TableCell))
    (rows : List (List TableCell)) : List (String × List FightData) :=
  parseFightSegmentsAux prev0 "main-card" [] rows

/-- The flattening loop `for segment_name, segment_fights in
segments.items(): for fight_data in segment_fights: ...` of
`_extract_fight_card_with_records`. -/
def flattenSegments (segs : List (String × List FightData)) :
    List (FightData × String) :=
  segs.flatMap (fun p => p.2.map (fun fd => (fd, p.1)))

/-- `WikipediaUFCScraper._generate_fighter_urls(...)[0]`. -/
def generateFighterUrlHead (name : String) : String :=
  "https://en.wikipedia.org/wiki/" ++
    ⟨((pyStrip name).data.map (fun c => if c = ' ' then '_' else c)).filter
      (fun c => c.isAlphanum || c = '_' || c = '-' || isSpaceChar c)⟩

/-- The two sequential result-cleanup conditionals of
`_create_fight_with_records` / `_create_fight_from_data`: blank method
clears both method and winner; a blank winner clears the winner. -/
def cleanMethodWinner (method0 winner0 : Option String) :
    Option String × Option String :=
  let p :=
    match method0 with
    | some m => if pyStrip m = "" then (Option.none, Option.none) else (some m, winner0)
    | Option.none => (Option.none, winner0)
  let w :=
    match p.2 with
    | some w0 => if pyStrip w0 = "" then Option.none else some w0
    | Option.none => Option.none
  (p.1, w)

/-- The `Fight` value assembled by `_create_fight_with_records` before
pydantic validation: both fighters with resolved records, the title-fight
flag and the cleaned result fields. -/
def wikiBuiltFight (db : List (String × Fighter)) (fightData : FightData)
    (boutOrder : Nat) (segment : String) : Fight :=
  let fighter1Name := fightData.fighter1
  let fighter2Name := fightData.fighter2
  let fighter1Record := fetchFighterRecord db fighter1Name
  let fighter2Record := fetchFighterRecord db fighter2Name
  let fighter1 : Fighter :=
    { name := fighter1Name,
      is_champion := fightData.fighter1_is_champion,
      record_breakdown := fighter1Record,
      record := fighter1Record.map toRecordString,
      wikipedia_url :=
        match fighter1Record with
        | some _ => some (generateFighterUrlHead fighter1Name)
        | Option.none => Option.none }
  let fighter2 : Fighter :=
    { name := fighter2Name,
      is_champion := fightData.fighter2_is_champion,
      record_breakdown := fighter2Record,
      record := fighter2Record.map toRecordString,
      wikipedia_url :=
        match fighter2Record with
        | some _ => some (generateFighterUrlHead fighter2Name)
        | Option.none => Option.none }
  let weightClass := fightData.weight_class
  let titleFight :=
    if fightData.is_title_fight then TitleFightType.undisputed
    else if strContains (pyLower weightClass) "championship" ||
        strContains (pyLower weightClass) "title" then TitleFightType.undisputed
    else TitleFightType.none
  let mw := cleanMethodWinner fightData.method fightData.winner
  { bout_order := boutOrder,
    fighter1 := fighter1,
    fighter2 := fighter2,
    weight_class := weightClass,
    title_fight := titleFight,
    method := mw.1,
    winner := mw.2,
    segment := some segment }

/-- `WikipediaUFCScraper._create_fight_with_records`: assemble the fight and
validate it; a pydantic `ValidationError` is the `none` result. -/
def createFightWithRecords (db : List (String × Fighter)) (fightData : FightData)
    (boutOrder : Nat) (segment : String) : Option Fight :=
  Fight.mkChecked (wikiBuiltFight db fightData boutOrder segment)

/-- The `Fight` value assembled by `_create_fight_from_data`: as
`wikiBuiltFight` but without record resolution. -/
def wikiBuiltFightPlain (fightData : FightData) (boutOrder : Nat)
    (segment : String) : Fight :=
  let fighter1 : Fighter :=
    { name := fightData.fighter1, is_champion := fightData.fighter1_is_champion }
  let fighter2 : Fighter :=
    { name := fightData.fighter2, is_champion := fightData.fighter2_is_champion }
  let weightClass := fightData.weight_class
  let titleFight :=
    if fightData.is_title_fight then TitleFightType.undisputed
    else if strContains (pyLower weightClass) "championship" ||
        strContains (pyLower weightClass) "title" then TitleFightType.undisputed
    else TitleFightType.none
  let mw := cleanMethodWinner fightData.method fightData.winner
  { bout_order := boutOrder,
    fighter1 := fighter1,
    fighter2 := fighter2,
    weight_class := weightClass,
    title_fight := titleFight,
    method := mw.1,
    winner := mw.2,
    segment := some segment }

/-- `WikipediaUFCScraper._create_fight_from_data`. -/
def createFightFromData (fightData : FightData) (boutOrder : Nat)
    (segment : String) : Option Fight :=
  Fight.mkChecked (wikiBuiltFightPlain fightData boutOrder segment)

/-- The assignment loop of `_extract_fight_card_with_records`:
`bout_order = total_fights - i`, keeping only the successfully created
fights. -/
def extractAssign (db : List (String × Fighter)) (total : Nat) :
    Nat → List (FightData × String) → List Fight
  | _, [] => []
  | i, (fd, seg) :: rest =>
    match createFightWithRecords db fd (total - i) seg with
    | some f => f :: extractAssign db total (i + 1) rest
    | Option.none => extractAssign db total (i + 1) rest

/-- `WikipediaUFCScraper._extract_fight_card_with_records` on the flattened
`(fight_data, segment_name)` list. -/
def extractFightCardWithRecords (db : List (String × Fighter))
    (raw : List (FightData × String)) : List Fight :=
  extractAssign db raw.length 0 raw

/-! ## Fight extraction: UFCStats adapter

`UFCStatsScaper._parse_fight_row` and `_extract_fights`. A row carries the
`td` cells (text plus anchor texts) and whether its class list contains
`b-fight-details__table-header`. -/

structure StatsCell where
  text : String
  links : List String
deriving DecidableEq, Repr

structure StatsRow where
  isHeader : Bool
  cols : List StatsCell
deriving DecidableEq, Repr

/-- The `Fight` value assembled by `UFCStatsScaper._parse_fight_row` from
the extracted cell texts, before pydantic validation. -/
def statsBuiltFight (link0 link1 result0 weight0 methodCell : String)
    (round0 time0 : Option String) (boutOrder : Nat) : Fight :=
  let fighter1Name := pyStrip link0
  let fighter2Name := pyStrip link1
  let resultText := pyStrip result0
  let parts := (splitOnSep '-' resultText.data).map (fun p => (⟨p⟩ : String))
  let winner0 : Option String :=
    if resultText ≠ "" ∧ resultText ≠ "W/L" ∧ 2 ≤ parts.length then
      (if parts.head? = some "W" then some fighter1Name else some fighter2Name)
    else Option.none
  let method0 : Option String :=
    if resultText ≠ "" ∧ resultText ≠ "W/L" ∧ 2 ≤ parts.length ∧
        2 < parts.length then
      parts.getLast?
    else Option.none
  let weightClass := pyStrip weight0
  let methodText := pyStrip methodCell
  let roundText := round0.map pyStrip
  let timeText := time0.map pyStrip
  let method1 :=
    if methodText ≠ "" ∧ methodText ≠ "--" then some methodText else method0
  let roundNum : Option Nat :=
    match roundText with
    | some rt => if pyIsDigit rt.data then some (charsToNat rt.data) else Option.none
    | Option.none => Option.none
  let time1 : Option String :=
    match timeText with
    | some tt => if tt ≠ "" ∧ tt ≠ "--" then some tt else Option.none
    | Option.none => Option.none
  let titleFight :=
    if strContains (pyLower weightClass) "title" ||
        strContains (pyLower weightClass) "championship" then
      TitleFightType.undisputed
    else TitleFightType.none
  { bout_order := boutOrder,
    fighter1 := { name := fighter1Name },
    fighter2 := { name := fighter2Name },
    weight_class := weightClass,
    title_fight := titleFight,
    method := method1,
    round := roundNum,
    time := time1,
    winner := winner0 }

/-- `UFCStatsScaper._parse_fight_row`: guards on the cell and link counts,
then assemble and validate. -/
def statsParseFightRow (row : StatsRow) (boutOrder : Nat) : Option Fight :=
  let cols := row.cols
  if cols.length < 8 then Option.none
  else
    match cols.get? 1 with
    | Option.none => Option.none
    | some fighterCell =>
      if fighterCell.links.length < 2 then Option.none
      else
        match fighterCell.links.get? 0, fighterCell.links.get? 1 with
        | some link0, some link1 =>
          Fight.mkChecked (statsBuiltFight link0 link1
            (match cols.get? 0 with
             | some c => c.text
             | Option.none => "")
            (match cols.get? 6 with
             | some c => c.text
             | Option.none => "")
            (match cols.get? 7 with
             | some c => c.text
             | Option.none => "")
            ((cols.get? 8).map (fun c => c.text))
            ((cols.get? 9).map (fun c => c.text))
            boutOrder)
        | _, _ => Option.none

/-- The collection loop of `_extract_fights`: skip header rows, advance the
provisional bout counter only on success. -/
def statsCollect : Nat → List StatsRow → List Fight
  | _, [] => []
  | boutOrder, row :: rest =>
    if row.isHeader then statsCollect boutOrder rest
    else
      match statsParseFightRow row boutOrder with
      | some f => f :: statsCollect (boutOrder + 1) rest
      | Option.none => statsCollect boutOrder rest

/-- The in-place renumbering `for i, fight in enumerate(fights):
fight.bout_order = i + 1`. -/
def renumberFights : Nat → List Fight → List Fight
  | _, [] => []
  | n, f :: rest => { f with bout_order := n } :: renumberFights (n + 1) rest

/-- `UFCStatsScaper._extract_fights`: collect in document order, reverse so
the main event comes first, renumber 1..N. -/
def statsExtractFights (rows : List StatsRow) : List Fight :=
  renumberFights 1 (statsCollect 1 rows).reverse

/-! ## The two bout-order derivations (C4)

The order-assignment skeletons of the two adapters, paired with the rows
they number: `bout_order = total_fights - i` over the enumeration
(wikipedia_ufc.py, `_extract_fight_card_with_records`) versus
reverse-then-renumber-1..N (ufc_stats.py, `_extract_fights`). -/

def wikiOrdersGo (total : Nat) : Nat → List α → List (α × Nat)
  | _, [] => []
  | i, a :: rest => (a, total - i) :: wikiOrdersGo total (i + 1) rest

/-- The Wikipedia rule: row at enumeration index `i` of `N` rows receives
`bout_order = N - i`. -/
def wikipediaAssignOrders (l : List α) : List (α × Nat) :=
  wikiOrdersGo l.length 0 l

def renumberFrom (n : Nat) : List α → List (α × Nat)
  | [] => []
  | a :: rest => (a, n) :: renumberFrom (n + 1) rest

/-- The UFCStats rule: reverse the collected rows, then renumber 1..N. -/
def ufcStatsAssignOrders (l : List α) : List (α × Nat) :=
  renumberFrom 1 l.reverse

theorem wikiOrdersGo_shift (l : List α) :
    ∀ t i, wikiOrdersGo (t + 1) (i + 1) l = wikiOrdersGo t i l := by
  induction l with
  | nil => intro t i; rfl
  | cons a rest ih =>
    intro t i
    simp only [wikiOrdersGo, Nat.succ_sub_succ, ih t (i + 1)]

theorem renumberFrom_append_single (a : α) :
    ∀ (xs : List α) (n : Nat),
      renumberFrom n (xs ++ [a]) = renumberFrom n xs ++ [(a, n + xs.length)] := by
  intro xs
  induction xs with
  | nil => intro n; simp [renumberFrom]
  | cons x rest ih =>
    intro n
    simp only [List.cons_append, renumberFrom, List.length_cons]
    show (x, n) :: renumberFrom (n + 1) (rest ++ [a]) =
      (x, n) :: (renumberFrom (n + 1) rest ++ [(a, n + (rest.length + 1))])
    rw [ih (n + 1)]
    have hn : n + 1 + rest.length = n + (rest.length + 1) := by omega
    rw [hn]

/-- C4: the two bout-order derivations agree — numbering N successfully
parsed rows by `total - index` (Wikipedia) and by reverse-then-renumber-1..N
(UFCStats) pairs every row with the same number; the two results are the
same association list up to the reversal of presentation order, the first
document row receives N and the last receives 1. -/
theorem C4_bout_order_derivations_equivalent (l : List α) :
    (wikipediaAssignOrders l).reverse = ufcStatsAssignOrders l ∧
    (∀ a rest, l = a :: rest →
      (wikipediaAssignOrders l).head? = some (a, l.length)) ∧
    (∀ a, l.getLast? = some a → (ufcStatsAssignOrders l).head? = some (a, 1)) := by
  refine ⟨?_, ?_, ?_⟩
  · induction l with
    | nil => rfl
    | cons a rest ih =>
      have hshift : wikiOrdersGo (rest.length + 1) 1 rest
          = wikiOrdersGo rest.length 0 rest := wikiOrdersGo_shift rest rest.length 0
      calc (wikipediaAssignOrders (a :: rest)).reverse
          = (wikiOrdersGo rest.length 0 rest).reverse ++ [(a, rest.length + 1)] := by
            simp only [wikipediaAssignOrders, List.length_cons, wikiOrdersGo,
              Nat.sub_zero, List.reverse_cons, hshift]
        _ = ufcStatsAssignOrders rest ++ [(a, rest.length + 1)] := by
            rw [← ih]; rfl
        _ = renumberFrom 1 rest.reverse ++ [(a, 1 + rest.reverse.length)] := by
            simp [ufcStatsAssignOrders, List.length_reverse, Nat.add_comm]
        _ = ufcStatsAssignOrders (a :: rest) := by
            rw [ufcStatsAssignOrders, List.reverse_cons,
              renumberFrom_append_single a rest.reverse 1]
  · intro a rest hl
    subst hl
    simp [wikipediaAssignOrders, wikiOrdersGo]
  · intro a ha
    obtain ⟨xs, hxs⟩ : ∃ xs, l = xs ++ [a] := by
      rcases List.eq_nil_or_concat l with h | ⟨xs, b, hxs⟩
      · subst h; simp at ha
      · subst hxs
        simp [List.getLast?_concat] at ha
        exact ⟨xs, by rw [ha, List.concat_eq_append]⟩
    subst hxs
    simp [ufcStatsAssignOrders, List.reverse_append, renumberFrom]

/-- Witness for C4 on a concrete three-row document. -/
theorem C4_bout_order_derivations_equivalent_witness :
    (wikipediaAssignOrders [10, 20, 30]).head? = some (10, 3) ∧
    (ufcStatsAssignOrders [10, 20, 30]).head? = some (30, 1) ∧
    (wikipediaAssignOrders [10, 20, 30]).reverse = ufcStatsAssignOrders [10, 20, 30] := by
  refine ⟨?_, ?_, (C4_bout_order_derivations_equivalent [10, 20, 30]).1⟩
  · exact (C4_bout_order_derivations_equivalent [10, 20, 30]).2.1 10 [20, 30] rfl
  · exact (C4_bout_order_derivations_equivalent [10, 20, 30]).2.2 30 (by decide)

/-! ## Bout-order contiguity (C3) -/

/-- "bout_order values are exactly the set 1..N": the multiset of orders is
a permutation of `[1, ..., length]`. -/
def boutOrdersContiguous (fights : List Fight) : Prop :=
  (fights.map (fun f => f.bout_order)).Perm (List.range' 1 fights.length)

/-- The parsed-dict fields whose pydantic validation `_create_fight_*`
depends on: nonempty fighter names and a nonempty weight class. -/
def fightDataOk (fd : FightData) : Prop :=
  fd.fighter1.data ≠ [] ∧ fd.fighter2.data ≠ [] ∧ fd.weight_class.data ≠ []

instance (fd : FightData) : Decidable (fightDataOk fd) := by
  unfold fightDataOk
  infer_instance

theorem Fight_mkChecked_eq_some {f : Fight} (h : f.valid = true) :
    Fight.mkChecked f = some f := by
  rw [Fight.mkChecked, if_pos h]

theorem wikiBuiltFight_valid (db : List (String × Fighter)) (fd : FightData)
    (b : Nat) (seg : String) (h : fightDataOk fd) (hb : 1 ≤ b) :
    (wikiBuiltFight db fd b seg).valid = true := by
  obtain ⟨h1, h2, h3⟩ := h
  simp [wikiBuiltFight, Fight.valid, Fighter.valid, Option.all,
    isEmpty_false_of_ne_nil h1, isEmpty_false_of_ne_nil h2,
    isEmpty_false_of_ne_nil h3, hb]

theorem createFightWithRecords_ok (db : List (String × Fighter)) (fd : FightData)
    (b : Nat) (seg : String) (h : fightDataOk fd) (hb : 1 ≤ b) :
    createFightWithRecords db fd b seg = some (wikiBuiltFight db fd b seg) := by
  rw [createFightWithRecords, Fight_mkChecked_eq_some (wikiBuiltFight_valid db fd b seg h hb)]

theorem extractAssign_orders (db : List (String × Fighter)) (total : Nat) :
    ∀ (raw : List (FightData × String)) (i : Nat),
      (∀ p ∈ raw, fightDataOk p.1) → i + raw.length ≤ total →
      (extractAssign db total i raw).map (fun f => f.bout_order)
        = (List.range raw.length).map (fun j => total - (i + j)) := by
  intro raw
  induction raw with
  | nil => intro i _ _; rfl
  | cons p rest ih =>
    intro i hok hle
    obtain ⟨fd, seg⟩ := p
    simp only [List.length_cons] at hle
    have hb : 1 ≤ total - i := by omega
    have hfd : fightDataOk fd := hok (fd, seg) (by simp)
    simp only [extractAssign, createFightWithRecords_ok db fd (total - i) seg hfd hb,
      List.map_cons]
    rw [ih (i + 1) (fun q hq => hok q (by simp [hq])) (by omega)]
    rw [show (wikiBuiltFight db fd (total - i) seg).bout_order = total - i from rfl]
    simp only [List.length_cons]
    rw [List.range_succ_eq_map]
    simp only [List.map_cons, List.map_map, Nat.add_zero]
    have hfun : (fun j => total - (i + 1 + j))
        = ((fun j => total - (i + j)) ∘ Nat.succ) := by
      funext j
      simp only [Function.comp_apply]
      omega
    rw [hfun]

theorem renumberFights_map_orders :
    ∀ (l : List Fight) (n : Nat),
      (renumberFights n l).map (fun f => f.bout_order) = List.range' n l.length := by
  intro l
  induction l with
  | nil => intro n; rfl
  | cons f rest ih =>
    intro n
    simp only [renumberFights, List.map_cons, List.length_cons, List.range'_succ, ih]

theorem renumberFights_length :
    ∀ (l : List Fight) (n : Nat), (renumberFights n l).length = l.length := by
  intro l
  induction l with
  | nil => intro n; rfl
  | cons f rest ih => intro n; simp [renumberFights, ih]

/-- C3 counterexample: two parsed rows, the second of which fails fight
creation (empty fighter name), make the Wikipedia extractor emit a single
fight carrying bout_order 2 — not the set `{1}`. -/
def c3BadRaw : List (FightData × String) :=
  [({ fighter1 := "A", fighter2 := "B", fighter1_is_champion := false,
      fighter2_is_champion := false, is_title_fight := false,
      winner := some "A", method := some "KO", round := some "1",
      time := some "2:30", weight_class := "Heavyweight" }, "main-card"),
   ({ fighter1 := "", fighter2 := "D", fighter1_is_champion := false,
      fighter2_is_champion := false, is_title_fight := false,
      winner := some "", method := some "", round := some "",
      time := some "", weight_class := "Lightweight" }, "main-card")]

/-- C3 counterexample theorem: on `c3BadRaw` the extracted list has one
fight, whose bout_order is 2, so the orders are not `{1..N}`. -/
theorem C3_bout_orders_counterexample :
    ((extractFightCardWithRecords [] c3BadRaw).map (fun f => f.bout_order)) = [2] ∧
    ¬ boutOrdersContiguous (extractFightCardWithRecords [] c3BadRaw) := by
  constructor
  · decide
  · unfold boutOrdersContiguous
    decide

/-- C3 (amended): the UFCStats extractor always renumbers its output to
exactly 1..N, row failures included; the Wikipedia extractor yields orders
forming exactly `{1..N}` provided every parsed row passes fight creation —
when a row fails, the orders keep gaps (see the counterexample). -/
theorem C3_bout_orders_amended :
    (∀ rows : List StatsRow,
      (statsExtractFights rows).map (fun f => f.bout_order)
        = List.range' 1 (statsExtractFights rows).length) ∧
    (∀ (db : List (String × Fighter)) (raw : List (FightData × String)),
      (∀ p ∈ raw, fightDataOk p.1) →
      boutOrdersContiguous (extractFightCardWithRecords db raw)) := by
  constructor
  · intro rows
    rw [statsExtractFights, renumberFights_map_orders, renumberFights_length]
  · intro db raw hok
    unfold boutOrdersContiguous extractFightCardWithRecords
    have hmap := extractAssign_orders db raw.length raw 0 hok (by omega)
    have hlen : (extractAssign db raw.length 0 raw).length = raw.length := by
      have hcg := congrArg List.length hmap
      simpa using hcg
    rw [hmap, hlen]
    have hrev : (List.range raw.length).map (fun j => raw.length - (0 + j))
        = (List.range' 1 raw.length).reverse := by
      rw [List.reverse_range']
      congr 1
      funext j
      omega
    rw [hrev]
    exact List.reverse_perm _

/-- Witness for C3 on concrete inputs: a UFCStats row list with a header and
an unparseable row, and a Wikipedia raw list whose rows all convert. -/
theorem C3_bout_orders_amended_witness :
    ((statsExtractFights
        [{ isHeader := true, cols := [] },
         { isHeader := false,
           cols := [⟨"W-U-DEC", []⟩, ⟨"", ["Alice", "Bob"]⟩, ⟨"", []⟩, ⟨"", []⟩,
             ⟨"", []⟩, ⟨"", []⟩, ⟨"Heavyweight", []⟩, ⟨"KO", []⟩] }]).map
        (fun f => f.bout_order)) = [1] ∧
    boutOrdersContiguous (extractFightCardWithRecords []
      [(({ fighter1 := "A", fighter2 := "B", fighter1_is_champion := false,
           fighter2_is_champion := false, is_title_fight := false,
           winner := some "A", method := some "KO", round := some "1",
           time := some "2:30", weight_class := "Heavyweight" } : FightData), "main-card"),
       (({ fighter1 := "C", fighter2 := "D", fighter1_is_champion := false,
           fighter2_is_champion := false, is_title_fight := false,
           winner := some "C", method := some "", round := some "",
           time := some "", weight_class := "Lightweight" } : FightData), "main-card")]) := by
  constructor
  · have h := C3_bout_orders_amended.1
      [{ isHeader := true, cols := [] },
       { isHeader := false,
         cols := [⟨"W-U-DEC", []⟩, ⟨"", ["Alice", "Bob"]⟩, ⟨"", []⟩, ⟨"", []⟩,
           ⟨"", []⟩, ⟨"", []⟩, ⟨"Heavyweight", []⟩, ⟨"KO", []⟩] }]
    rw [h]
    decide
  · exact C3_bout_orders_amended.2 []
      [(({ fighter1 := "A", fighter2 := "B", fighter1_is_champion := false,
           fighter2_is_champion := false, is_title_fight := false,
           winner := some "A", method := some "KO", round := some "1",
           time := some "2:30", weight_class := "Heavyweight" } : FightData), "main-card"),
       (({ fighter1 := "C", fighter2 := "D", fighter1_is_champion := false,
           fighter2_is_champion := false, is_title_fight := false,
           winner := some "C", method := some "", round := some "",
           time := some "", weight_class := "Lightweight" } : FightData), "main-card")]
      (by decide)

/-! ## Segment state machine scenario (C5) -/

/-- The scenario table: a "Main card" header, A-vs-B with a champion marker
on A, C-vs-D, a "Prelims" header, E-vs-F. Fight rows have the seven
conventional columns. -/
def c5Rows : List (List TableCell) :=
  [[⟨"Main card", true⟩],
   [⟨"Heavyweight", false⟩, ⟨"A (c)", false⟩, ⟨"vs.", false⟩, ⟨"B", false⟩,
    ⟨"", false⟩, ⟨"", false⟩, ⟨"", false⟩],
   [⟨"Lightweight", false⟩, ⟨"C", false⟩, ⟨"vs.", false⟩, ⟨"D", false⟩,
    ⟨"", false⟩, ⟨"", false⟩, ⟨"", false⟩],
   [⟨"Prelims", true⟩],
   [⟨"Welterweight", false⟩, ⟨"E", false⟩, ⟨"vs.", false⟩, ⟨"F", false⟩,
    ⟨"", false⟩, ⟨"", false⟩, ⟨"", false⟩]]

/-- C5: extracting the scenario table yields exactly three fights; their
segments are main-card, main-card, prelims; their bout orders are 3, 2, 1 —
a permutation of 1..3 — and the A-vs-B fight is an undisputed title fight
because of the champion marker. -/
theorem C5_segment_scenario :
    ((extractFightCardWithRecords []
        (flattenSegments (parseFightSegments Option.none c5Rows))).map
      (fun f => (f.segment, f.bout_order, f.title_fight, f.fighter1.name, f.fighter2.name)))
      = [(some "main-card", 3, TitleFightType.undisputed, "A", "B"),
         (some "main-card", 2, TitleFightType.none, "C", "D"),
         (some "prelims", 1, TitleFightType.none, "E", "F")] ∧
    boutOrdersContiguous (extractFightCardWithRecords []
      (flattenSegments (parseFightSegments Option.none c5Rows))) := by
  constructor
  · decide
  · unfold boutOrdersContiguous
    decide

/-! ## Winner/method consistency (C9) -/

/-- The claimed invariant on one fight: the winner, when present, is one of
the two fighters' names. -/
def winnerConsistent (f : Fight) : Prop :=
  f.winner = Option.none ∨ f.winner = some f.fighter1.name ∨
    f.winner = some f.fighter2.name

theorem Fight_mkChecked_some_inv {g f : Fight} (h : Fight.mkChecked g = some f) :
    f = g := by
  rw [Fight.mkChecked] at h
  split at h
  · exact (Option.some.inj h).symm
  · exact absurd h (by simp)

theorem parseFightRow_winner_method (prev : Option (List TableCell))
    (row : List TableCell) (fd : FightData)
    (h : parseFightRow prev row = some fd) :
    fd.winner = some fd.fighter1 ∧ ∃ m, fd.method = some m := by
  unfold parseFightRow at h
  dsimp only at h
  split at h
  · exact absurd h (by simp)
  · split at h
    · exact absurd h (by simp)
    · split at h
      · rename_i wcCell f1Cell f2Cell heq
        have hfd := Option.some.inj h
        subst hfd
        exact ⟨rfl, _, rfl⟩
      · exact absurd h (by simp)

theorem cleanMethodWinner_winner_cases (m : Option String) (w : String) :
    (cleanMethodWinner m (some w)).2 = Option.none ∨
    (cleanMethodWinner m (some w)).2 = some w := by
  unfold cleanMethodWinner
  cases m with
  | none =>
    by_cases hw : pyStrip w = "" <;> simp [hw]
  | some m0 =>
    by_cases hm : pyStrip m0 = ""
    · simp [hm]
    · by_cases hw : pyStrip w = "" <;> simp [hm, hw]

theorem cleanMethodWinner_method_none (m0 : String) (w : Option String)
    (h : (cleanMethodWinner (some m0) w).1 = Option.none) :
    (cleanMethodWinner (some m0) w).2 = Option.none := by
  unfold cleanMethodWinner at h ⊢
  by_cases hm : pyStrip m0 = ""
  · simp [hm]
  · simp [hm] at h

theorem statsBuiltFight_winnerConsistent (link0 link1 result0 weight0 methodCell : String)
    (round0 time0 : Option String) (b : Nat) :
    winnerConsistent (statsBuiltFight link0 link1 result0 weight0 methodCell
      round0 time0 b) := by
  unfold winnerConsistent statsBuiltFight
  dsimp only
  split
  · split
    · right; left; rfl
    · right; right; rfl
  · left; rfl

theorem statsParseFightRow_winner (row : StatsRow) (b : Nat) (f : Fight)
    (h : statsParseFightRow row b = some f) : winnerConsistent f := by
  unfold statsParseFightRow at h
  dsimp only at h
  split at h
  · exact absurd h (by simp)
  · split at h
    · exact absurd h (by simp)
    · rename_i fighterCell heq
      split at h
      · exact absurd h (by simp)
      · split at h
        · rename_i link0 link1 heq2
          have hf := Fight_mkChecked_some_inv h
          subst hf
          apply statsBuiltFight_winnerConsistent
        · exact absurd h (by simp)

theorem wikiBuiltFightPlain_create_winner (fd : FightData) (b : Nat) (seg : String)
    (f : Fight) (hw : fd.winner = some fd.fighter1) (m0 : String)
    (hm : fd.method = some m0) (hc : createFightFromData fd b seg = some f) :
    winnerConsistent f ∧ (f.method = Option.none → f.winner = Option.none) := by
  rw [createFightFromData] at hc
  have hf := Fight_mkChecked_some_inv hc
  subst hf
  have ew : (wikiBuiltFightPlain fd b seg).winner
      = (cleanMethodWinner fd.method fd.winner).2 := rfl
  have em : (wikiBuiltFightPlain fd b seg).method
      = (cleanMethodWinner fd.method fd.winner).1 := rfl
  have en : (wikiBuiltFightPlain fd b seg).fighter1.name = fd.fighter1 := rfl
  constructor
  · unfold winnerConsistent
    rw [ew, en, hw]
    rcases cleanMethodWinner_winner_cases fd.method fd.fighter1 with hcase | hcase
    · left; exact hcase
    · right; left; exact hcase
  · intro hnone
    rw [em, hw, hm] at hnone
    rw [ew, hw, hm]
    exact cleanMethodWinner_method_none m0 _ hnone

theorem wikiBuiltFight_create_winner (db : List (String × Fighter)) (fd : FightData)
    (b : Nat) (seg : String) (f : Fight) (hw : fd.winner = some fd.fighter1)
    (m0 : String) (hm : fd.method = some m0)
    (hc : createFightWithRecords db fd b seg = some f) :
    winnerConsistent f ∧ (f.method = Option.none → f.winner = Option.none) := by
  rw [createFightWithRecords] at hc
  have hf := Fight_mkChecked_some_inv hc
  subst hf
  have ew : (wikiBuiltFight db fd b seg).winner
      = (cleanMethodWinner fd.method fd.winner).2 := rfl
  have em : (wikiBuiltFight db fd b seg).method
      = (cleanMethodWinner fd.method fd.winner).1 := rfl
  have en : (wikiBuiltFight db fd b seg).fighter1.name = fd.fighter1 := rfl
  constructor
  · unfold winnerConsistent
    rw [ew, en, hw]
    rcases cleanMethodWinner_winner_cases fd.method fd.fighter1 with hcase | hcase
    · left; exact hcase
    · right; left; exact hcase
  · intro hnone
    rw [em, hw, hm] at hnone
    rw [ew, hw, hm]
    exact cleanMethodWinner_method_none m0 _ hnone

/-- The UFCStats row refuting the method/winner implication: the result
column reads "W-U" (so a winner is recorded) but the method column is
"--" and the result string has no third component, leaving method absent. -/
def c9Row : StatsRow :=
  { isHeader := false,
    cols := [⟨"W-U", []⟩, ⟨"", ["Alice", "Bob"]⟩, ⟨"", []⟩, ⟨"", []⟩,
      ⟨"", []⟩, ⟨"", []⟩, ⟨"Heavyweight", []⟩, ⟨"--", []⟩] }

/-- C9 counterexample: the UFCStats extractor emits a fight whose method is
absent while its winner is set, falsifying "whenever method is absent,
winner is also absent". -/
theorem C9_winner_method_counterexample :
    ((statsExtractFights [c9Row]).map (fun f => (f.method, f.winner)))
      = [(Option.none, some "Alice")] ∧
    ¬ (∀ f ∈ statsExtractFights [c9Row],
        f.method = Option.none → f.winner = Option.none) := by
  refine ⟨by decide, by decide⟩

/-- C9 (amended): every fight produced by the UFCStats row parser or by the
Wikipedia row parser composed with fight creation has a winner that is
absent or one of the two fighters' names; the method-absent-implies-
winner-absent half holds for the Wikipedia adapter but not for UFCStats
(see the counterexample). -/
theorem C9_winner_method_amended :
    (∀ (row : StatsRow) (b : Nat) (f : Fight),
      statsParseFightRow row b = some f → winnerConsistent f) ∧
    (∀ (prev : Option (List TableCell)) (row : List TableCell) (fd : FightData)
        (b : Nat) (seg : String) (f : Fight),
      parseFightRow prev row = some fd → createFightFromData fd b seg = some f →
      winnerConsistent f ∧ (f.method = Option.none → f.winner = Option.none)) ∧
    (∀ (prev : Option (List TableCell)) (row : List TableCell) (fd : FightData)
        (db : List (String × Fighter)) (b : Nat) (seg : String) (f : Fight),
      parseFightRow prev row = some fd → createFightWithRecords db fd b seg = some f →
      winnerConsistent f ∧ (f.method = Option.none → f.winner = Option.none)) := by
  refine ⟨statsParseFightRow_winner, ?_, ?_⟩
  · intro prev row fd b seg f hp hc
    obtain ⟨hw, m0, hm⟩ := parseFightRow_winner_method prev row fd hp
    exact wikiBuiltFightPlain_create_winner fd b seg f hw m0 hm hc
  · intro prev row fd db b seg f hp hc
    obtain ⟨hw, m0, hm⟩ := parseFightRow_winner_method prev row fd hp
    exact wikiBuiltFight_create_winner db fd b seg f hw m0 hm hc

def c9GoodStatsRow : StatsRow :=
  { isHeader := false,
    cols := [⟨"W-U-DEC", []⟩, ⟨"", ["Alice", "Bob"]⟩, ⟨"", []⟩, ⟨"", []⟩,
      ⟨"", []⟩, ⟨"", []⟩, ⟨"Heavyweight", []⟩, ⟨"KO", []⟩] }

def c9WitnessFd : FightData :=
  { fighter1 := "C", fighter2 := "D", fighter1_is_champion := false,
    fighter2_is_champion := false, is_title_fight := false,
    winner := some "C", method := some "", round := some "",
    time := some "", weight_class := "Lightweight" }

/-- Witness for C9 at a concrete UFCStats row and a concrete Wikipedia row. -/
theorem C9_winner_method_amended_witness :
    winnerConsistent (statsBuiltFight "Alice" "Bob" "W-U-DEC" "Heavyweight" "KO"
      Option.none Option.none 1) ∧
    (winnerConsistent (wikiBuiltFightPlain c9WitnessFd 1 "main-card") ∧
      ((wikiBuiltFightPlain c9WitnessFd 1 "main-card").method = Option.none →
        (wikiBuiltFightPlain c9WitnessFd 1 "main-card").winner = Option.none)) := by
  constructor
  · exact C9_winner_method_amended.1 c9GoodStatsRow 1
      (statsBuiltFight "Alice" "Bob" "W-U-DEC" "Heavyweight" "KO"
        Option.none Option.none 1) (by decide)
  · exact C9_winner_method_amended.2.1 (some [⟨"Main card", true⟩])
      [⟨"Lightweight", false⟩, ⟨"C", false⟩, ⟨"vs.", false⟩, ⟨"D", false⟩,
       ⟨"", false⟩, ⟨"", false⟩, ⟨"", false⟩]
      c9WitnessFd 1 "main-card"
      (wikiBuiltFightPlain c9WitnessFd 1 "main-card") (by decide) (by decide)

/-! ## Persistence sink (C8)

`DatabaseManager.save_event` from `utils/database.py`: `INSERT OR REPLACE`
into `events` keyed by `event_id`, `DELETE FROM fights WHERE event_id = ?`,
then one `INSERT` per fight. The tables are modelled as row lists;
serialised TEXT payloads (`json.dumps`, `model_dump_json`, `isoformat`)
are carried structurally, which preserves row equality. A failed insert —
the `fights` table's `UNIQUE(event_id, bout_order)` firing inside the
freshly inserted batch — rolls the transaction back and returns `False`.
The pydantic `UFCEvent` validator already rejects duplicate bout orders,
so canonical events always satisfy the success condition. The `odds`
attribute read by `save_event` belongs to the part of
`models/ufc_models.py` that is absent from the source tree (as is
`FighterRecord`); it is modelled as an optional serialised payload. -/

inductive EventStatus where
  | scheduled
  | completed
  | cancelled
  | postponed
deriving DecidableEq, Repr

def EventStatus.value : EventStatus → String
  | EventStatus.scheduled => "scheduled"
  | EventStatus.completed => "completed"
  | EventStatus.cancelled => "cancelled"
  | EventStatus.postponed => "postponed"

structure UFCEvent where
  event_id : String
  event_name : String
  event_date : String
  venue : Option String := Option.none
  location : Option String := Option.none
  status : EventStatus := EventStatus.scheduled
  attendance : Option Nat := Option.none
  gate : Option String := Option.none
  tv_broadcast : Option String := Option.none
  start_time : Option String := Option.none
  fights : List Fight := []
  scraped_at : String := ""
  source_urls : List (String × String) := []
deriving DecidableEq, Repr

structure EventRow where
  event_id : String
  event_name : String
  event_date : String
  venue : Option String
  location : Option String
  status : String
  attendance : Option Nat
  gate : Option String
  tv_broadcast : Option String
  start_time : Option String
  scraped_at : String
  source_urls : List (String × String)
deriving DecidableEq, Repr

structure FightRow where
  event_id : String
  bout_order : Nat
  fighter1_name : String
  fighter2_name : String
  fighter1_record : Option String
  fighter2_record : Option String
  fighter1_rank : Option Nat
  fighter2_rank : Option Nat
  fighter1_country : Option String
  fighter2_country : Option String
  weight_class : String
  title_fight : String
  method : Option String
  round : Option Nat
  time : Option String
  winner : Option String
  result : Option String
  referee : Option String
  bonuses : Option (List String)
  odds : Option String
  stats : Option String
  fight_url : Option String
deriving DecidableEq, Repr

/-- The two SQLite tables. -/
structure SqliteDB where
  events : List EventRow
  fights : List FightRow
deriving DecidableEq, Repr

def TitleFightType.value : TitleFightType → String
  | TitleFightType.undisputed => "undisputed"
  | TitleFightType.interim => "interim"
  | TitleFightType.none => "none"

/-- The tuple bound by the `INSERT OR REPLACE INTO events` statement. -/
def toEventRow (e : UFCEvent) : EventRow :=
  { event_id := e.event_id, event_name := e.event_name, event_date := e.event_date,
    venue := e.venue, location := e.location, status := e.status.value,
    attendance := e.attendance, gate := e.gate, tv_broadcast := e.tv_broadcast,
    start_time := e.start_time, scraped_at := e.scraped_at,
    source_urls := e.source_urls }

/-- The tuple bound by the `INSERT INTO fights` statement; an empty bonus
list is falsy in `json.dumps(fight.bonuses) if fight.bonuses else None`. -/
def toFightRow (eid : String) (f : Fight) : FightRow :=
  { event_id := eid, bout_order := f.bout_order,
    fighter1_name := f.fighter1.name, fighter2_name := f.fighter2.name,
    fighter1_record := f.fighter1.record, fighter2_record := f.fighter2.record,
    fighter1_rank := f.fighter1.rank, fighter2_rank := f.fighter2.rank,
    fighter1_country := f.fighter1.country, fighter2_country := f.fighter2.country,
    weight_class := f.weight_class, title_fight := f.title_fight.value,
    method := f.method, round := f.round, time := f.time, winner := f.winner,
    result := f.result, referee := f.referee,
    bonuses :=
      match f.bonuses with
      | some bs => if bs = [] then Option.none else some bs
      | Option.none => Option.none,
    odds := f.odds, stats := f.stats, fight_url := f.fight_url }

/-- `DatabaseManager.save_event`: upsert the event row, replace the fight
rows; on a constraint violation inside the inserted batch, roll back and
return `false`. -/
def saveEvent (db : SqliteDB) (e : UFCEvent) : SqliteDB × Bool :=
  if (e.fights.map (fun f => f.bout_order)).Nodup then
    ({ events := db.events.filter (fun r => r.event_id ≠ e.event_id) ++ [toEventRow e],
       fights := db.fights.filter (fun r => r.event_id ≠ e.event_id) ++
         e.fights.map (toFightRow e.event_id) }, true)
  else (db, false)

theorem filter_ne_append_keep {α : Type} (key : α → String) (eid : String)
    (xs ys : List α) (hys : ∀ y ∈ ys, key y = eid) :
    ((xs.filter (fun r => key r ≠ eid) ++ ys).filter (fun r => key r ≠ eid))
      = xs.filter (fun r => key r ≠ eid) := by
  rw [List.filter_append]
  have h1 : ((xs.filter (fun r => key r ≠ eid)).filter (fun r => key r ≠ eid))
      = xs.filter (fun r => key r ≠ eid) :=
    List.filter_eq_self.mpr (fun a ha => (List.mem_filter.mp ha).2)
  have h2 : ys.filter (fun r => key r ≠ eid) = [] := by
    rw [List.filter_eq_nil_iff]
    intro y hy
    simp [hys y hy]
  rw [h1, h2, List.append_nil]

theorem filter_eq_append_new {α : Type} (key : α → String) (eid : String)
    (xs ys : List α) (hys : ∀ y ∈ ys, key y = eid) :
    ((xs.filter (fun r => key r ≠ eid) ++ ys).filter (fun r => key r = eid)) = ys := by
  rw [List.filter_append]
  have h1 : ((xs.filter (fun r => key r ≠ eid)).filter (fun r => key r = eid)) = [] := by
    rw [List.filter_eq_nil_iff]
    intro y hy
    have hmem := (List.mem_filter.mp hy).2
    simp at hmem ⊢
    exact hmem
  have h2 : ys.filter (fun r => key r = eid) = ys :=
    List.filter_eq_self.mpr (fun a ha => by simp [hys a ha])
  rw [h1, h2, List.nil_append]

/-- C8: saving a canonical event succeeds, saving it again is a no-op on
the database state, and the fight rows stored under its event id are
exactly the event's own fights — replaced, never appended. -/
theorem C8_upsert_idempotent (db : SqliteDB) (e : UFCEvent)
    (h : (e.fights.map (fun f => f.bout_order)).Nodup) :
    (saveEvent db e).2 = true ∧
    saveEvent (saveEvent db e).1 e = saveEvent db e ∧
    ((saveEvent db e).1.fights.filter (fun r => r.event_id = e.event_id))
      = e.fights.map (toFightRow e.event_id) := by
  have hev : ∀ y ∈ [toEventRow e], y.event_id = e.event_id := by
    intro y hy
    simp only [List.mem_singleton] at hy
    subst hy
    rfl
  have hfr : ∀ y ∈ e.fights.map (toFightRow e.event_id), y.event_id = e.event_id := by
    intro y hy
    obtain ⟨f, _, rfl⟩ := List.mem_map.mp hy
    rfl
  refine ⟨by simp [saveEvent, h], ?_, ?_⟩
  · simp only [saveEvent, if_pos h, Prod.mk.injEq, SqliteDB.mk.injEq]
    refine ⟨⟨?_, ?_⟩, trivial⟩
    · rw [filter_ne_append_keep (fun r => r.event_id) e.event_id db.events _ hev]
    · rw [filter_ne_append_keep (fun r => r.event_id) e.event_id db.fights _ hfr]
  · simp only [saveEvent, if_pos h]
    exact filter_eq_append_new (fun r => r.event_id) e.event_id db.fights _ hfr

def c8Event : UFCEvent :=
  { event_id := "UFC_1", event_name := "UFC 1", event_date := "1993-11-12",
    status := EventStatus.completed,
    fights := [{ bout_order := 1, fighter1 := { name := "Royce" },
                 fighter2 := { name := "Gerard" }, weight_class := "Open" }] }

/-- Witness for C8 on an empty database and a one-fight event. -/
theorem C8_upsert_idempotent_witness :
    (saveEvent ⟨[], []⟩ c8Event).2 = true ∧
    saveEvent (saveEvent ⟨[], []⟩ c8Event).1 c8Event = saveEvent ⟨[], []⟩ c8Event ∧
    ((saveEvent ⟨[], []⟩ c8Event).1.fights.filter
        (fun r => r.event_id = c8Event.event_id))
      = c8Event.fights.map (toFightRow c8Event.event_id) := by
  exact C8_upsert_idempotent ⟨[], []⟩ c8Event (by decide)
